import Mathlib

/-!
# CodeCollab — Session Synchronization & Execution Orchestration: a shallow embedding

This file embeds, as executable Lean definitions, the parts of the CodeCollab
server that the specification's claims are about, and proves (or refutes) each
claim against that embedding.

Embedded source files:
* `server/services/pistonExecutor.js` — `executeWithPiston`, `truncateOutput`,
  `getLanguageConfig` (namespace `Piston`);
* `server/routes/analyticsRoutes.js` (the `SocketController` half) —
  `handleJoinRoom`, `handleCodeUpdate`, `schedulePersistence`,
  `handleDisconnect` (namespaces `Socket`, `Debounce`, `Evict`);
* the `Room` model class (`Room.addParticipant`, `Room.addRecordingEvent`)
  (namespace `RoomModel`);
* `server/middleware/zodSchemas.js` (`createRateLimiter`) together with
  `server/config/redis.js` (`cache.incr`) (namespace `RateLim`).

JavaScript strings are modelled as `List Char` where lengths matter
(truncation) and as `String` elsewhere; timestamps (`Date.now()`) are `Nat`
milliseconds; `Map`s are association lists; `setTimeout` timers are explicit
deadlines driven by a discrete-event loop.
-/

namespace Piston

/-- `LIMITS.maxOutput = 1024 * 100` from `pistonExecutor.js`. -/
def maxOutput : Nat := 1024 * 100

/-- `LIMITS.maxCodeLength = 1024 * 64` from `pistonExecutor.js`. -/
def maxCodeLength : Nat := 1024 * 64

/-- The fixed truncation marker appended by `truncateOutput`
(`'\n[Output truncated - exceeded 100KB limit]'`). -/
def truncMarker : List Char := "\n[Output truncated - exceeded 100KB limit]".data

/-- `truncateOutput(output)` from `pistonExecutor.js`:
`if (!output) return ''` (on a string argument, falsy means empty);
`if (output.length > LIMITS.maxOutput) return output.substring(0, maxOutput) + marker`;
otherwise the output unchanged.  `substring(0, n)` is `List.take n`. -/
def truncateOutput (output : List Char) : List Char :=
  if output = [] then []
  else if output.length > maxOutput then output.take maxOutput ++ truncMarker
  else output

/-- String-typed wrapper used where the executor truncates `String` fields. -/
def truncateOutputStr (s : String) : String :=
  String.mk (truncateOutput s.data)

theorem truncateOutput_short (out : List Char) (h : out.length ≤ maxOutput) :
    truncateOutput out = out := by
  unfold truncateOutput
  by_cases hn : out = []
  · simp [hn]
  · simp [hn, Nat.not_lt.mpr h]

theorem truncateOutput_long (out : List Char) (h : out.length > maxOutput) :
    truncateOutput out = out.take maxOutput ++ truncMarker := by
  have hn : out ≠ [] := by
    intro he
    rw [he] at h
    simp [maxOutput] at h
  unfold truncateOutput
  simp [hn, h]

theorem truncateOutput_idem (out : List Char) :
    truncateOutput (truncateOutput out) = truncateOutput out := by
  by_cases h : out.length > maxOutput
  · rw [truncateOutput_long out h]
    have htk : (out.take maxOutput).length = maxOutput := by
      simp [List.length_take]
      omega
    have hlen : (out.take maxOutput ++ truncMarker).length > maxOutput := by
      have hm : truncMarker.length = 42 := by decide
      simp [List.length_append, htk, hm]
    rw [truncateOutput_long _ hlen]
    have : (out.take maxOutput ++ truncMarker).take maxOutput = out.take maxOutput := by
      have := List.take_left (out.take maxOutput) truncMarker
      rw [htk] at this
      exact this
    rw [this]
  · rw [truncateOutput_short out (Nat.not_lt.mp h), truncateOutput_short out (Nat.not_lt.mp h)]

end Piston

/-- C4: the output-truncation function is exact and idempotent: outputs of
length at most the 100KB cap are returned unchanged; longer outputs are cut to
exactly the first cap characters followed by the fixed marker; and applying the
function twice equals applying it once. -/
theorem C4_truncateOutput_exact_idempotent :
    (∀ out : List Char, out.length ≤ Piston.maxOutput →
        Piston.truncateOutput out = out) ∧
    (∀ out : List Char, out.length > Piston.maxOutput →
        Piston.truncateOutput out = out.take Piston.maxOutput ++ Piston.truncMarker) ∧
    (∀ out : List Char,
        Piston.truncateOutput (Piston.truncateOutput out) = Piston.truncateOutput out) :=
  ⟨Piston.truncateOutput_short, Piston.truncateOutput_long, Piston.truncateOutput_idem⟩

/-- Witness for C4: the three parts evaluated at concrete outputs — a short
output is unchanged, an over-cap output is cut at the cap with the marker
appended, and truncation is idempotent there. -/
theorem C4_truncateOutput_exact_idempotent_witness :
    Piston.truncateOutput ['h', 'i'] = ['h', 'i'] ∧
    Piston.truncateOutput (List.replicate (Piston.maxOutput + 1) 'a') =
      List.replicate Piston.maxOutput 'a' ++ Piston.truncMarker ∧
    Piston.truncateOutput
        (Piston.truncateOutput (List.replicate (Piston.maxOutput + 1) 'a')) =
      Piston.truncateOutput (List.replicate (Piston.maxOutput + 1) 'a') := by
  refine ⟨?_, ?_, ?_⟩
  · exact C4_truncateOutput_exact_idempotent.1 ['h', 'i'] (by simp [Piston.maxOutput])
  · have h := C4_truncateOutput_exact_idempotent.2.1 (List.replicate (Piston.maxOutput + 1) 'a')
      (by simp)
    rw [h, List.take_replicate]
    simp
  · exact C4_truncateOutput_exact_idempotent.2.2 (List.replicate (Piston.maxOutput + 1) 'a')

namespace Piston

/-- One entry of `LANGUAGE_CONFIG` in `pistonExecutor.js`: the Piston runtime
name, its version, and the accepted aliases. -/
structure LangConfig where
  language : String
  version : String
  aliases : List String
  deriving Repr, DecidableEq

/-- `LANGUAGE_CONFIG` from `pistonExecutor.js`, in object-literal order
(JS object iteration follows insertion order). -/
def LANGUAGE_CONFIG : List (String × LangConfig) :=
  [ ("javascript", ⟨"javascript", "18.15.0", ["js", "node"]⟩),
    ("typescript", ⟨"typescript", "5.0.3", ["ts"]⟩),
    ("python", ⟨"python", "3.10.0", ["py", "python3"]⟩),
    ("java", ⟨"java", "15.0.2", []⟩),
    ("cpp", ⟨"cpp", "10.2.0", ["c++", "cplusplus"]⟩),
    ("c", ⟨"c", "10.2.0", []⟩),
    ("csharp", ⟨"csharp", "6.12.0", ["cs", "c#"]⟩),
    ("go", ⟨"go", "1.16.2", ["golang"]⟩),
    ("rust", ⟨"rust", "1.68.2", ["rs"]⟩),
    ("ruby", ⟨"ruby", "3.0.1", ["rb"]⟩),
    ("php", ⟨"php", "8.2.3", []⟩),
    ("swift", ⟨"swift", "5.3.3", []⟩),
    ("kotlin", ⟨"kotlin", "1.8.20", ["kt"]⟩),
    ("scala", ⟨"scala", "3.2.2", []⟩),
    ("r", ⟨"r", "4.1.1", ["rlang"]⟩),
    ("perl", ⟨"perl", "5.36.0", ["pl"]⟩),
    ("lua", ⟨"lua", "5.4.4", []⟩),
    ("bash", ⟨"bash", "5.2.0", ["sh", "shell"]⟩),
    ("powershell", ⟨"powershell", "7.1.4", ["ps", "ps1"]⟩),
    ("sql", ⟨"sqlite3", "3.36.0", ["sqlite"]⟩),
    ("haskell", ⟨"haskell", "9.0.1", ["hs"]⟩),
    ("elixir", ⟨"elixir", "1.11.3", ["ex"]⟩),
    ("clojure", ⟨"clojure", "1.10.3", ["clj"]⟩),
    ("dart", ⟨"dart", "2.19.6", []⟩),
    ("julia", ⟨"julia", "1.8.5", ["jl"]⟩),
    ("fsharp", ⟨"fsharp", "5.0.201", ["fs", "f#"]⟩),
    ("matlab", ⟨"octave", "6.2.0", ["octave"]⟩),
    ("cobol", ⟨"cobol", "3.1.2", ["cob"]⟩),
    ("fortran", ⟨"fortran", "10.2.0", ["f90", "f95"]⟩),
    ("pascal", ⟨"pascal", "3.2.2", ["pas"]⟩),
    ("groovy", ⟨"groovy", "3.0.7", []⟩),
    ("nim", ⟨"nim", "1.6.10", []⟩),
    ("crystal", ⟨"crystal", "1.7.2", ["cr"]⟩),
    ("zig", ⟨"zig", "0.10.1", []⟩),
    ("vlang", ⟨"vlang", "0.3.3", ["v"]⟩),
    ("racket", ⟨"racket", "8.3", ["rkt"]⟩),
    ("prolog", ⟨"prolog", "8.2.4", ["pl"]⟩),
    ("lisp", ⟨"lisp", "2.1.2", ["commonlisp", "cl"]⟩),
    ("erlang", ⟨"erlang", "23.0", ["erl"]⟩),
    ("ocaml", ⟨"ocaml", "4.12.0", ["ml"]⟩),
    ("d", ⟨"d", "2.101.0", ["dlang"]⟩),
    ("assembly", ⟨"nasm", "2.15.5", ["asm", "nasm"]⟩) ]

/-- JS `language.toLowerCase()`, modelled on the character list
(character-wise `Char.toLower`, which agrees with `String.toLower`). -/
def toLowerCase (s : String) : String := String.mk (s.data.map Char.toLower)

/-- `getLanguageConfig(language)`: lowercase the input, try a direct key match,
then scan entries for one whose alias list contains it; `null` if none. -/
def getLanguageConfig (language : String) : Option LangConfig :=
  let normalized := toLowerCase language
  match (LANGUAGE_CONFIG.find? fun kv => kv.1 = normalized) with
  | some kv => some kv.2
  | none =>
      match (LANGUAGE_CONFIG.find? fun kv => normalized ∈ kv.2.aliases) with
      | some kv => some kv.2
      | none => none

/-- `getSupportedLanguages()`: the keys of `LANGUAGE_CONFIG`. -/
def getSupportedLanguages : List String := LANGUAGE_CONFIG.map Prod.fst

/-- One stage (`compile` or `run`) of a Piston response:
`{stdout, stderr, output, code, signal}`. -/
structure StageResult where
  stdout : String
  stderr : String
  output : String
  code : Int
  signal : Option String
  deriving Repr, DecidableEq

/-- A parsed Piston `/execute` response body: optional `compile` stage and
optional `run` stage. -/
structure PistonResponse where
  compile : Option StageResult
  run : Option StageResult
  deriving Repr, DecidableEq

/-- The result object `executeWithPiston` resolves with.  Fields absent on
some branches of the JS object literals (`exitCode`, `signal`) are `Option`. -/
structure ExecResult where
  success : Bool
  output : String
  error : String
  exitCode : Option Int
  duration : Nat
  language : String
  engine : String
  signal : Option String
  deriving Repr, DecidableEq

/-- `result.compile.stderr || result.compile.output || 'Compilation failed'`
(JS `||` takes the first non-empty string). -/
def compileErrorText (c : StageResult) : String :=
  if c.stderr ≠ "" then c.stderr
  else if c.output ≠ "" then c.output
  else "Compilation failed"

/-- The run-result branch of `executeWithPiston`:
`runResult = result.run || {}`, defaulted field reads
(`runResult.stdout || ''`, `runResult.code || 0`), `success` iff the exit code
is zero and the raw error stream empty, stdout truncated with a
no-output fallback, stderr truncated. -/
def runClassify (run : Option StageResult) (language : String) (duration : Nat) :
    ExecResult :=
  let stdout := (run.map StageResult.stdout).getD ""
  let stderr := (run.map StageResult.stderr).getD ""
  let exitCode := (run.map StageResult.code).getD 0
  { success := decide (exitCode = 0 ∧ stderr = "")
    output := if truncateOutputStr stdout = "" then
        (if exitCode = 0 then "Code executed successfully (no output)" else "")
      else truncateOutputStr stdout
    error := truncateOutputStr stderr
    exitCode := some exitCode
    duration := duration
    language := language
    engine := "piston"
    signal := run.bind StageResult.signal }

/-- Response classification inside `executeWithPiston`'s `try` block:
`if (result.compile && result.compile.code !== 0)` short-circuits to a
compile-failure result (empty output, compile text as error); otherwise the
run result is classified. -/
def classifyResponse (resp : PistonResponse) (language : String) (duration : Nat) :
    ExecResult :=
  match resp.compile with
  | some c =>
      if c.code ≠ 0 then
        { success := false
          output := ""
          error := truncateOutputStr (compileErrorText c)
          exitCode := none
          duration := duration
          language := language
          engine := "piston"
          signal := none }
      else runClassify resp.run language duration
  | none => runClassify resp.run language duration

/-- Outcome of the HTTP interaction with the Piston API, the only effectful
step inside `executeWithPiston`'s `try` block: the fetch (or body parse) threw
with a message, the response was non-OK with a status and body text, or a
response object was obtained. -/
inductive FetchOutcome where
  | networkError (msg : String)
  | httpError (status : Nat) (body : String)
  | success (resp : PistonResponse)
  deriving Repr, DecidableEq

/-- The catch-branch result object: `{success: false, output: '',
error: error.message, duration: Date.now() - startTime, language, engine}`. -/
def catchResult (msg language : String) (duration : Nat) : ExecResult :=
  { success := false, output := "", error := msg, exitCode := none,
    duration := duration, language := language, engine := "piston", signal := none }

/-- `executeWithPiston(options)` from `pistonExecutor.js`.  Validation
(`!code`, oversized code, unsupported language) throws — modelled as
`Except.error`.  After validation the `try/catch` never rethrows: a fetch
exception or a non-OK response produces the catch-branch failure result, and a
parsed response is classified by `classifyResponse`.  `startTime`/`endTime`
are the `Date.now()` readings around the call. -/
def executeWithPiston (code language : String) (fetch : FetchOutcome)
    (startTime endTime : Nat) : Except String ExecResult :=
  if code = "" then Except.error "Code is required"
  else if code.length > maxCodeLength then
    Except.error ("Code exceeds maximum length of " ++ toString (maxCodeLength / 1024) ++ "KB")
  else
    match getLanguageConfig language with
    | none =>
        Except.error ("Unsupported language: " ++ language ++ ". Supported: " ++
          String.intercalate ", " getSupportedLanguages)
    | some _config =>
        match fetch with
        | .networkError msg => Except.ok (catchResult msg language (endTime - startTime))
        | .httpError status body =>
            Except.ok (catchResult
              ("Piston API error: " ++ toString status ++ " - " ++ body)
              language (endTime - startTime))
        | .success resp => Except.ok (classifyResponse resp language (endTime - startTime))

theorem runClassify_failure (run : Option StageResult) (lang : String) (dur : Nat)
    (h : (run.map StageResult.code).getD 0 ≠ 0 ∨ (run.map StageResult.stderr).getD "" ≠ "") :
    (runClassify run lang dur).success = false ∧
    (runClassify run lang dur).exitCode = some ((run.map StageResult.code).getD 0) ∧
    (runClassify run lang dur).error =
      truncateOutputStr ((run.map StageResult.stderr).getD "") := by
  refine ⟨?_, rfl, rfl⟩
  simp only [runClassify, decide_eq_false_iff_not]
  tauto

theorem classifyResponse_no_compile_error (resp : PistonResponse) (lang : String) (dur : Nat)
    (h : ∀ c, resp.compile = some c → c.code = 0) :
    classifyResponse resp lang dur = runClassify resp.run lang dur := by
  unfold classifyResponse
  cases hc : resp.compile with
  | none => rfl
  | some c => simp [h c hc]

end Piston

/-- C7: a response whose compile stage reports a non-zero exit code is
classified as a failure built only from the compile output (empty output,
truncated compile text as the error, no run exit code), independently of the
run stage; a response whose compile stage is absent or exits zero but whose
run stage has a non-zero exit code or non-empty error stream is classified as
a completed result with `success = false` carrying the exit code and truncated
error stream, and the executor returns it normally (`Except.ok`) rather than
raising an error. -/
theorem C7_execution_outcome_classification :
    (∀ (resp : Piston.PistonResponse) (c : Piston.StageResult) (lang : String) (dur : Nat),
      resp.compile = some c → c.code ≠ 0 →
      Piston.classifyResponse resp lang dur =
        { success := false, output := "",
          error := Piston.truncateOutputStr (Piston.compileErrorText c),
          exitCode := none, duration := dur, language := lang,
          engine := "piston", signal := none } ∧
      (∀ run', Piston.classifyResponse { resp with run := run' } lang dur =
          Piston.classifyResponse resp lang dur)) ∧
    (∀ (resp : Piston.PistonResponse) (lang : String) (dur : Nat),
      (∀ c, resp.compile = some c → c.code = 0) →
      ((resp.run.map Piston.StageResult.code).getD 0 ≠ 0 ∨
        (resp.run.map Piston.StageResult.stderr).getD "" ≠ "") →
      (Piston.classifyResponse resp lang dur).success = false ∧
      (Piston.classifyResponse resp lang dur).exitCode =
        some ((resp.run.map Piston.StageResult.code).getD 0) ∧
      (Piston.classifyResponse resp lang dur).error =
        Piston.truncateOutputStr ((resp.run.map Piston.StageResult.stderr).getD "") ∧
      (∀ code t0 t1, code ≠ "" → code.length ≤ Piston.maxCodeLength →
        (Piston.getLanguageConfig lang).isSome →
        Piston.executeWithPiston code lang (.success resp) t0 t1 =
          Except.ok (Piston.classifyResponse resp lang (t1 - t0)))) :=
  by
  constructor
  · intro resp c lang dur hc hne
    constructor
    · simp [Piston.classifyResponse, hc, hne]
    · intro run'
      simp [Piston.classifyResponse, hc, hne]
  · intro resp lang dur hcomp hfail
    rw [Piston.classifyResponse_no_compile_error resp lang dur hcomp]
    obtain ⟨h1, h2, h3⟩ := Piston.runClassify_failure resp.run lang dur hfail
    refine ⟨h1, h2, h3, ?_⟩
    intro code t0 t1 hne hlen hcfg
    obtain ⟨cfg, hcfgEq⟩ := Option.isSome_iff_exists.mp hcfg
    simp [Piston.executeWithPiston, hne, Nat.not_lt.mpr hlen, hcfgEq]

/-- Witness for C7: a concrete compile failure (exit 1) is classified from the
compile text alone, unchanged when the run stage is dropped; a concrete
runtime failure (exit 1, non-empty stderr) is a `success = false` completed
result, and the executor returns it with `Except.ok`. -/
theorem C7_execution_outcome_classification_witness :
    Piston.classifyResponse
        ⟨some ⟨"", "compile boom", "", 1, none⟩, some ⟨"out", "", "", 0, none⟩⟩ "python" 5 =
      { success := false, output := "",
        error := Piston.truncateOutputStr
          (Piston.compileErrorText ⟨"", "compile boom", "", 1, none⟩),
        exitCode := none, duration := 5, language := "python",
        engine := "piston", signal := none } ∧
    Piston.classifyResponse ⟨some ⟨"", "compile boom", "", 1, none⟩, none⟩ "python" 5 =
      Piston.classifyResponse
        ⟨some ⟨"", "compile boom", "", 1, none⟩, some ⟨"out", "", "", 0, none⟩⟩ "python" 5 ∧
    (Piston.classifyResponse ⟨none, some ⟨"", "runtime boom", "", 1, none⟩⟩ "python" 7).success
      = false ∧
    Piston.executeWithPiston "print(1)" "python"
        (.success ⟨none, some ⟨"", "runtime boom", "", 1, none⟩⟩) 10 25 =
      Except.ok (Piston.classifyResponse ⟨none, some ⟨"", "runtime boom", "", 1, none⟩⟩
        "python" 15) := by
  have h1 := C7_execution_outcome_classification.1
    ⟨some ⟨"", "compile boom", "", 1, none⟩, some ⟨"out", "", "", 0, none⟩⟩
    ⟨"", "compile boom", "", 1, none⟩ "python" 5 rfl (by decide)
  have h2 := C7_execution_outcome_classification.2
    ⟨none, some ⟨"", "runtime boom", "", 1, none⟩⟩ "python" 7
    (fun c hc => by cases hc) (Or.inl (by decide))
  refine ⟨h1.1, h1.2 none, h2.1, ?_⟩
  have h3 := (C7_execution_outcome_classification.2
    ⟨none, some ⟨"", "runtime boom", "", 1, none⟩⟩ "python" 15
    (fun c hc => by cases hc) (Or.inl (by decide))).2.2.2
    "print(1)" 10 25 (by decide) (by decide) (by decide)
  simpa using h3

/-- C10: the synchronous execution function is total on its error path — for
every input passing validation (non-empty code within the size cap, supported
language), a fetch exception and a non-OK HTTP response both yield a normal
return (`Except.ok`) of a result with `success = false`, empty output, the
error message in the error field, and the measured duration; and every parsed
response also yields a normal return. -/
theorem C10_executeWithPiston_error_path_total :
    ∀ (code lang msg body : String) (status t0 t1 : Nat) (resp : Piston.PistonResponse),
      code ≠ "" → code.length ≤ Piston.maxCodeLength →
      (Piston.getLanguageConfig lang).isSome →
      (Piston.executeWithPiston code lang (.networkError msg) t0 t1 =
        Except.ok { success := false, output := "", error := msg, exitCode := none,
                    duration := t1 - t0, language := lang, engine := "piston",
                    signal := none }) ∧
      (Piston.executeWithPiston code lang (.httpError status body) t0 t1 =
        Except.ok { success := false, output := "",
                    error := "Piston API error: " ++ toString status ++ " - " ++ body,
                    exitCode := none, duration := t1 - t0, language := lang,
                    engine := "piston", signal := none }) ∧
      (∃ r, Piston.executeWithPiston code lang (.success resp) t0 t1 = Except.ok r) := by
  intro code lang msg body status t0 t1 resp hne hlen hcfg
  obtain ⟨cfg, hcfgEq⟩ := Option.isSome_iff_exists.mp hcfg
  refine ⟨?_, ?_,
      ⟨Piston.classifyResponse resp lang (t1 - t0), ?_⟩⟩ <;>
    simp [Piston.executeWithPiston, Piston.catchResult, hne, Nat.not_lt.mpr hlen, hcfgEq]

/-- Witness for C10: concrete evaluations — a failed fetch and a 500 response
on valid python code both return `Except.ok` failure results with the measured
duration, and a parsed response returns `Except.ok`. -/
theorem C10_executeWithPiston_error_path_total_witness :
    (Piston.executeWithPiston "print(1)" "python" (.networkError "fetch failed") 100 350 =
      Except.ok { success := false, output := "", error := "fetch failed", exitCode := none,
                  duration := 250, language := "python", engine := "piston",
                  signal := none }) ∧
    (Piston.executeWithPiston "print(1)" "python" (.httpError 500 "oops") 100 350 =
      Except.ok { success := false, output := "",
                  error := "Piston API error: " ++ toString 500 ++ " - " ++ "oops",
                  exitCode := none, duration := 250, language := "python",
                  engine := "piston", signal := none }) ∧
    (∃ r, Piston.executeWithPiston "print(1)" "python"
        (.success ⟨none, some ⟨"1\n", "", "", 0, none⟩⟩) 100 350 = Except.ok r) := by
  have h := C10_executeWithPiston_error_path_total "print(1)" "python" "fetch failed" "oops"
    500 100 350 ⟨none, some ⟨"1\n", "", "", 0, none⟩⟩ (by decide) (by decide) (by decide)
  simpa using h

/-! ## JavaScript `Map` as an association list

`Map.get` / `Map.set` / `Map.delete` on string keys; `set` replaces in place
or appends a new entry. -/

namespace JsMap

variable {α : Type}

/-- `m.get(k)`. -/
def mget (m : List (String × α)) (k : String) : Option α :=
  (m.find? fun kv => kv.1 == k).map Prod.snd

/-- `m.set(k, v)`: replace the entry for `k` if present, else append. -/
def mset (m : List (String × α)) (k : String) (v : α) : List (String × α) :=
  if m.any (fun kv => kv.1 == k) then
    m.map fun kv => if kv.1 == k then (k, v) else kv
  else m ++ [(k, v)]

/-- `m.delete(k)`. -/
def mdel (m : List (String × α)) (k : String) : List (String × α) :=
  m.filter fun kv => kv.1 ≠ k

theorem mget_mset_self (m : List (String × α)) (k : String) (v : α) :
    mget (mset m k v) k = some v := by
  unfold mget mset
  by_cases h : m.any (fun kv => kv.1 == k)
  · simp only [h, if_true]
    induction m with
    | nil => simp at h
    | cons hd tl ih =>
      by_cases hhd : hd.1 == k
      · simp [List.find?, hhd]
      · simp only [List.any_cons, Bool.or_eq_true] at h
        rcases h with h | h
        · exact absurd h hhd
        · simpa [List.find?, hhd] using ih h
  · simp only [h, if_false]
    induction m with
    | nil => simp [List.find?]
    | cons hd tl ih =>
      simp only [List.any_cons, Bool.or_eq_true, not_or] at h
      simpa [List.find?, h.1] using ih h.2

theorem mem_mset (m : List (String × α)) (k : String) (v : α) (x : String × α)
    (hx : x ∈ mset m k v) : x ∈ m ∨ x.2 = v := by
  unfold mset at hx
  by_cases h : m.any (fun kv => kv.1 == k)
  · simp only [h, if_true, List.mem_map] at hx
    obtain ⟨kv, hkv, heq⟩ := hx
    by_cases hk : kv.1 == k
    · right
      rw [if_pos hk] at heq
      rw [← heq]
    · left
      rw [if_neg hk] at heq
      rw [← heq]
      exact hkv
  · simp only [h, if_false] at hx
    rcases List.mem_append.mp hx with hx | hx
    · exact Or.inl hx
    · have hxe : x = (k, v) := List.mem_singleton.mp hx
      exact Or.inr (by rw [hxe])

end JsMap

/-! ## The socket controller (`SocketController` in the server routes file)

State shared by the handlers: the `activeRoomSessions` map (room id →
live session object) and the `users` map (socket id → connected user), both
JS `Map`s on one instance.  Socket-side effects (`socket.emit`, `io.to(room)`,
`socket.to(room)`) are modelled as an explicit emission list returned next to
the updated state; `deliveredSockets` gives each emission's recipients under
socket.io channel semantics (a participant's socket joins the room channel on
join and leaves it on disconnect). -/

namespace Socket

open JsMap

/-- `CONFIG.ROOM.MAX_PARTICIPANTS` from `config/constants.js`. -/
def MAX_PARTICIPANTS : Nat := 10

/-- `ERROR_MESSAGES.ROOM_FULL`. -/
def ROOM_FULL : String := "Room is full"

/-- `PERSIST_DEBOUNCE_MS = 5000`. -/
def PERSIST_DEBOUNCE_MS : Nat := 5000

/-- A roster entry pushed by `handleJoinRoom`:
`{id, userId, userName, isGuest, socketId, joinedAt, cursorPosition}`. -/
structure Participant where
  id : String
  userId : String
  userName : String
  isGuest : Bool
  socketId : String
  joinedAt : Nat
  cursorLine : Nat
  cursorColumn : Nat
  deriving Repr, DecidableEq

/-- A recording entry `{type, data, timestamp}`; the `data` object is an
association list of its string fields. -/
structure RecEvent where
  type : String
  data : List (String × String)
  timestamp : Nat
  deriving Repr, DecidableEq

/-- A live session object held in `activeRoomSessions` (an object literal in
the controller, not a `Room` class instance): code, language, participants,
recording buffer, creation time, and the `_lastRecordTime` throttle stamp. -/
structure RoomSession where
  code : String
  language : String
  participants : List Participant
  recording : List RecEvent
  createdAt : Nat
  lastRecordTime : Option Nat
  deriving Repr, DecidableEq

/-- The fields of the `User` model (`models/User.js`) the handlers read. -/
structure UserConn where
  userId : String
  userName : String
  socketId : String
  roomId : String
  deriving Repr, DecidableEq

/-- The identity fields on `socket.user` (set by the JWT handshake
middleware) that `handleJoinRoom` destructures. -/
structure SocketUser where
  id : String
  userId : String
  userName : String
  isGuest : Bool
  deriving Repr, DecidableEq

/-- The two module-level maps the socket controller mutates. -/
structure ServerState where
  activeRoomSessions : List (String × RoomSession)
  users : List (String × UserConn)
  deriving Repr, DecidableEq

/-- One socket emission performed by a handler. -/
inductive Emit where
  /-- `socket.emit(ERROR, {message})` — to the requesting socket only. -/
  | errorMsg (socketId : String) (message : String)
  /-- `io.to(roomId).emit(USER_JOINED, {userId, userName, participants})` —
  the roster broadcast, to every socket in the room channel. -/
  | userJoined (roomId userId userName : String) (roster : List (String × String))
  /-- `socket.emit(LOAD_CODE, {code, language})` — to the joining socket. -/
  | loadCode (socketId code language : String)
  /-- `socket.to(roomId).emit(CODE_UPDATE, {code, userId})` — to every socket
  in the room channel except the sender. -/
  | codeUpdate (senderSocketId roomId code userId : String)
  deriving Repr, DecidableEq

/-- Recipients of an emission under socket.io semantics, given the session
whose participants' sockets are the members of the room channel. -/
def deliveredSockets (room : RoomSession) : Emit → List String
  | .errorMsg sid _ => [sid]
  | .loadCode sid _ _ => [sid]
  | .userJoined _ _ _ _ => room.participants.map Participant.socketId
  | .codeUpdate sender _ _ _ =>
      (room.participants.map Participant.socketId).filter fun sid => sid ≠ sender

/-- The default document of a session created on first join. -/
def defaultJoinCode : String := "// Welcome to CodeCollab!\n// Start coding here...\n"

/-- The participant object literal pushed by `handleJoinRoom`. -/
def newParticipant (socketId : String) (user : SocketUser) (now : Nat) : Participant :=
  { id := user.id, userId := user.userId, userName := user.userName,
    isGuest := user.isGuest, socketId := socketId, joinedAt := now,
    cursorLine := 0, cursorColumn := 0 }

/-- The room-lookup prefix of `handleJoinRoom`: take the session from
`activeRoomSessions`; on a miss, `RoomController.loadRoomSession` (modelled by
the `dbRoom` oracle: the stored `{code, language, createdAt}` row, if any)
stores and returns a fresh session with no participants; if the database has
no row either, a default session is created and stored. -/
def lookupOrCreateRoom (st : ServerState) (roomId : String)
    (dbRoom : Option (String × String × Nat)) (now : Nat) :
    ServerState × RoomSession :=
  match mget st.activeRoomSessions roomId with
  | some room => (st, room)
  | none =>
      let room : RoomSession :=
        match dbRoom with
        | some (code, language, createdAt) =>
            { code := code, language := language, participants := [],
              recording := [], createdAt := createdAt, lastRecordTime := none }
        | none =>
            { code := defaultJoinCode, language := "javascript", participants := [],
              recording := [], createdAt := now, lastRecordTime := none }
      ({ st with activeRoomSessions := mset st.activeRoomSessions roomId room }, room)

/-- `handleJoinRoom` after its guard clauses (missing `roomId` or missing
identity emit an error and return; every claim quantifies over authenticated
joins that carry a room id, so the guards are not modelled): load or create
the session, reject with `ROOM_FULL` when the roster already holds
`MAX_PARTICIPANTS`, else push the participant, register the user connection,
broadcast the new roster to the room, send the current document to the
joiner, and append a `user_joined` recording entry (no truncation). -/
def handleJoinRoom (st : ServerState) (socketId : String) (user : SocketUser)
    (roomId : String) (dbRoom : Option (String × String × Nat)) (now : Nat) :
    ServerState × List Emit :=
  let (st1, room) := lookupOrCreateRoom st roomId dbRoom now
  if room.participants.length ≥ MAX_PARTICIPANTS then
    (st1, [.errorMsg socketId ROOM_FULL])
  else
    let p := newParticipant socketId user now
    let room1 := { room with participants := room.participants ++ [p] }
    let room2 := { room1 with
      recording := room1.recording ++
        [⟨"user_joined", [("userId", user.userId), ("userName", user.userName)], now⟩] }
    let st2 := { st1 with
      activeRoomSessions := mset st1.activeRoomSessions roomId room2,
      users := mset st1.users socketId
        ⟨user.userId, user.userName, socketId, roomId⟩ }
    (st2,
      [.userJoined roomId user.userId user.userName
          (room1.participants.map fun q => (q.userId, q.userName)),
        .loadCode socketId room.code room.language])

/-- `handleCodeUpdate`: if the session or the sender is unknown, log and do
nothing; otherwise replace `room.code` wholesale, broadcast the update to the
room channel excluding the sender, and append a throttled `code_update`
recording entry (only when more than 5s have passed since `_lastRecordTime`).
Persistence scheduling is modelled separately (see the `Debounce`
namespace). -/
def handleCodeUpdate (st : ServerState) (socketId roomId code : String) (now : Nat) :
    ServerState × List Emit :=
  match mget st.activeRoomSessions roomId, mget st.users socketId with
  | some room, some user =>
      let room1 := { room with code := code }
      let shouldRecord : Bool :=
        match room1.lastRecordTime with
        | none => true
        | some t => decide (now - t > 5000)
      let room2 :=
        if shouldRecord then
          { room1 with
            recording := room1.recording ++ [⟨"code_update", [("userId", user.userId)], now⟩],
            lastRecordTime := some now }
        else room1
      ({ st with activeRoomSessions := mset st.activeRoomSessions roomId room2 },
        [.codeUpdate socketId roomId code user.userId])
  | _, _ => (st, [])

theorem lookupOrCreateRoom_found (st : ServerState) (roomId : String)
    (dbRoom : Option (String × String × Nat)) (now : Nat) (room : RoomSession)
    (h : mget st.activeRoomSessions roomId = some room) :
    lookupOrCreateRoom st roomId dbRoom now = (st, room) := by
  unfold lookupOrCreateRoom
  rw [h]

theorem lookupOrCreateRoom_bound (st : ServerState) (roomId : String)
    (dbRoom : Option (String × String × Nat)) (now : Nat) (n : Nat)
    (hinv : ∀ e ∈ st.activeRoomSessions, e.2.participants.length ≤ n) :
    ∀ e ∈ (lookupOrCreateRoom st roomId dbRoom now).1.activeRoomSessions,
      e.2.participants.length ≤ n := by
  intro e he
  unfold lookupOrCreateRoom at he
  cases hlk : mget st.activeRoomSessions roomId with
  | some room =>
      rw [hlk] at he
      exact hinv e he
  | none =>
      rw [hlk] at he
      cases dbRoom with
      | some row =>
          obtain ⟨c, l, t⟩ := row
          simp only at he
          rcases mem_mset _ _ _ _ he with h | h
          · exact hinv e h
          · rw [h]
            simp
      | none =>
          simp only at he
          rcases mem_mset _ _ _ _ he with h | h
          · exact hinv e h
          · rw [h]
            simp

end Socket

/-! ## The `Room` model class (`models/Room.js`) -/

namespace RoomModel

/-- A `Room`-class roster entry (the fields its methods read). -/
structure Participant where
  userId : String
  userName : String
  socketId : String
  deriving Repr, DecidableEq

/-- The `Room` class fields the claims touch; `maxParticipants` is
`settings.maxParticipants` (constructed as `CONFIG.ROOM.MAX_PARTICIPANTS`,
i.e. 10). -/
structure Room where
  id : String
  hostId : String
  participants : List Participant
  code : String
  language : String
  recording : List Socket.RecEvent
  maxParticipants : Nat
  deriving Repr, DecidableEq

/-- `Room.addParticipant`: throws `'Room is full'` at capacity, throws
`'User already in room'` when a roster entry with the same `userId` exists,
else pushes the participant.  A throw is `Except.error`. -/
def addParticipant (r : Room) (p : Participant) : Except String Room :=
  if r.participants.length ≥ r.maxParticipants then Except.error "Room is full"
  else if (r.participants.find? fun q => q.userId == p.userId).isSome then
    Except.error "User already in room"
  else Except.ok { r with participants := r.participants ++ [p] }

/-- `Room.addRecordingEvent`: push `{timestamp, type, data}`, then if the
buffer exceeds 1000 entries keep `recording.slice(-1000)` (the most recent
1000). -/
def addRecordingEvent (r : Room) (eventType : String)
    (data : List (String × String)) (now : Nat) : Room :=
  let events := r.recording ++ [⟨eventType, data, now⟩]
  if events.length > 1000 then
    { r with recording := events.drop (events.length - 1000) }
  else { r with recording := events }

end RoomModel

/-- C1: the participant count never exceeds the capacity of 10.  A join into a
session already holding `MAX_PARTICIPANTS` participants returns the state
unchanged and emits exactly the room-full error to the requester — in
particular no roster broadcast; and a join step preserves the invariant that
every session's roster has at most `MAX_PARTICIPANTS` entries. -/
theorem C1_capacity_never_exceeded :
    (∀ (st : Socket.ServerState) (socketId : String) (user : Socket.SocketUser)
        (roomId : String) (dbRoom : Option (String × String × Nat)) (now : Nat)
        (room : Socket.RoomSession),
      JsMap.mget st.activeRoomSessions roomId = some room →
      room.participants.length ≥ Socket.MAX_PARTICIPANTS →
      Socket.handleJoinRoom st socketId user roomId dbRoom now =
        (st, [Socket.Emit.errorMsg socketId Socket.ROOM_FULL])) ∧
    (∀ (st : Socket.ServerState) (socketId : String) (user : Socket.SocketUser)
        (roomId : String) (dbRoom : Option (String × String × Nat)) (now : Nat),
      (∀ e ∈ st.activeRoomSessions, e.2.participants.length ≤ Socket.MAX_PARTICIPANTS) →
      ∀ e ∈ (Socket.handleJoinRoom st socketId user roomId dbRoom now).1.activeRoomSessions,
        e.2.participants.length ≤ Socket.MAX_PARTICIPANTS) := by
  constructor
  · intro st socketId user roomId dbRoom now room hlk hfull
    unfold Socket.handleJoinRoom
    rw [Socket.lookupOrCreateRoom_found st roomId dbRoom now room hlk]
    simp [hfull]
  · intro st socketId user roomId dbRoom now hinv e he
    unfold Socket.handleJoinRoom at he
    rcases hres : Socket.lookupOrCreateRoom st roomId dbRoom now with ⟨st1, room⟩
    rw [hres] at he
    have hst1 : ∀ e ∈ st1.activeRoomSessions,
        e.2.participants.length ≤ Socket.MAX_PARTICIPANTS := by
      have h := Socket.lookupOrCreateRoom_bound st roomId dbRoom now
        Socket.MAX_PARTICIPANTS hinv
      rw [hres] at h
      exact h
    by_cases hcap : room.participants.length ≥ Socket.MAX_PARTICIPANTS
    · simp only [hcap, if_true] at he
      exact hst1 e he
    · simp only [hcap, if_false] at he
      rcases JsMap.mem_mset _ _ _ _ he with h | h
      · exact hst1 e h
      · rw [h]
        simp only [List.length_append, List.length_singleton]
        omega

/-- Witness for C1: a join into a concrete session already holding ten
participants returns the state unchanged with only the room-full error; and
after a join into an empty state every session is within capacity. -/
theorem C1_capacity_never_exceeded_witness :
    Socket.handleJoinRoom
        ⟨[("r", ⟨"c0", "javascript",
            List.replicate 10 ⟨"u", "u", "U", false, "s", 0, 0, 0⟩, [], 0, none⟩)], []⟩
        "s11" ⟨"a", "alice", "Alice", false⟩ "r" none 99 =
      (⟨[("r", ⟨"c0", "javascript",
            List.replicate 10 ⟨"u", "u", "U", false, "s", 0, 0, 0⟩, [], 0, none⟩)], []⟩,
        [Socket.Emit.errorMsg "s11" Socket.ROOM_FULL]) ∧
    ((Socket.handleJoinRoom ⟨[], []⟩ "s1" ⟨"a", "alice", "Alice", false⟩ "r" none 0).1.activeRoomSessions.all
      fun e => decide (e.2.participants.length ≤ Socket.MAX_PARTICIPANTS)) = true := by
  constructor
  · exact C1_capacity_never_exceeded.1
      ⟨[("r", ⟨"c0", "javascript",
          List.replicate 10 ⟨"u", "u", "U", false, "s", 0, 0, 0⟩, [], 0, none⟩)], []⟩
      "s11" ⟨"a", "alice", "Alice", false⟩ "r" none 99
      ⟨"c0", "javascript", List.replicate 10 ⟨"u", "u", "U", false, "s", 0, 0, 0⟩, [], 0, none⟩
      (by decide) (by decide)
  · rw [List.all_eq_true]
    intro e he
    rw [decide_eq_true_iff]
    exact C1_capacity_never_exceeded.2 ⟨[], []⟩ "s1" ⟨"a", "alice", "Alice", false⟩
      "r" none 0 (by simp) e he

/-- C2 fails as stated: two socket joins with identical identity (`userId
"alice"`) on the same session leave two roster entries for that identity —
`handleJoinRoom` performs no duplicate-identity check (the second join is
neither rejected nor a replacement). -/
theorem C2_counterexample_duplicate_join_appends :
    ((JsMap.mget (Socket.handleJoinRoom
        (Socket.handleJoinRoom ⟨[], []⟩ "s1" ⟨"a", "alice", "Alice", false⟩ "r" none 0).1
        "s2" ⟨"a", "alice", "Alice", false⟩ "r" none 10).1.activeRoomSessions "r").map
      fun room => room.participants.countP fun p => p.userId == "alice") = some 2 := by
  decide

/-- C2 (amended): duplicate-identity handling splits by path.  Through the
`Room` model, a second `addParticipant` with an already-present identity is
rejected (`'User already in room'` below capacity, a throw in any case) and
exactly one roster entry for that identity remains.  Through the socket join
handler there is no duplicate check: a join always appends its participant, so
a second join with an identical identity leaves a second roster entry (the
identity's entry count increases by one). -/
theorem C2_duplicate_identity_amended :
    (∀ (r : RoomModel.Room) (p : RoomModel.Participant) (r' : RoomModel.Room),
      r.participants.countP (fun q => q.userId == p.userId) = 0 →
      RoomModel.addParticipant r p = Except.ok r' →
      r'.participants.countP (fun q => q.userId == p.userId) = 1 ∧
      (∃ msg, RoomModel.addParticipant r' p = Except.error msg) ∧
      (r'.participants.length < r'.maxParticipants →
        RoomModel.addParticipant r' p = Except.error "User already in room")) ∧
    (∀ (st : Socket.ServerState) (socketId : String) (user : Socket.SocketUser)
        (roomId : String) (dbRoom : Option (String × String × Nat)) (now : Nat)
        (room : Socket.RoomSession),
      JsMap.mget st.activeRoomSessions roomId = some room →
      room.participants.length < Socket.MAX_PARTICIPANTS →
      ∃ room2,
        JsMap.mget (Socket.handleJoinRoom st socketId user roomId dbRoom now).1.activeRoomSessions
          roomId = some room2 ∧
        room2.participants = room.participants ++ [Socket.newParticipant socketId user now] ∧
        room2.participants.countP (fun q => q.userId == user.userId) =
          room.participants.countP (fun q => q.userId == user.userId) + 1) := by
  constructor
  · intro r p r' hzero hok
    unfold RoomModel.addParticipant at hok
    by_cases hcap : r.participants.length ≥ r.maxParticipants
    · simp [hcap] at hok
    · rw [if_neg hcap] at hok
      by_cases hdup : (r.participants.find? fun q => q.userId == p.userId).isSome
      · simp [hdup] at hok
      · rw [if_neg (by simpa using hdup)] at hok
        simp only [Except.ok.injEq] at hok
        have hpart : r'.participants = r.participants ++ [p] := by
          rw [← hok]
        have hcount : r'.participants.countP (fun q => q.userId == p.userId) = 1 := by
          rw [hpart, List.countP_append, hzero]
          simp [List.countP_cons]
        have hfind : (r'.participants.find? fun q => q.userId == p.userId).isSome := by
          rw [List.find?_isSome]
          exact ⟨p, by rw [hpart]; simp, by simp⟩
        refine ⟨hcount, ?_, ?_⟩
        · by_cases hcap' : r'.participants.length ≥ r'.maxParticipants
          · exact ⟨"Room is full", by unfold RoomModel.addParticipant; rw [if_pos hcap']⟩
          · exact ⟨"User already in room", by
              unfold RoomModel.addParticipant
              rw [if_neg hcap', if_pos hfind]⟩
        · intro hlt
          unfold RoomModel.addParticipant
          rw [if_neg (Nat.not_le.mpr hlt), if_pos hfind]
  · intro st socketId user roomId dbRoom now room hlk hlt
    unfold Socket.handleJoinRoom
    rw [Socket.lookupOrCreateRoom_found st roomId dbRoom now room hlk]
    dsimp only
    rw [if_neg (Nat.not_le.mpr hlt)]
    refine ⟨_, JsMap.mget_mset_self _ _ _, ?_, ?_⟩
    · rfl
    · rw [List.countP_append]
      simp [List.countP_cons, Socket.newParticipant]

/-- Witness for C2 (amended): on a concrete empty room, adding alice through
the `Room` model succeeds once and the repeated add is rejected with
`'User already in room'`, leaving one entry; a concrete socket join onto a
session already containing alice appends a second alice entry. -/
theorem C2_duplicate_identity_amended_witness :
    (⟨"r", "h", [⟨"alice", "Alice", "s1"⟩], "", "javascript", [], 10⟩ :
        RoomModel.Room).participants.countP
      (fun q => q.userId == "alice") = 1 ∧
    RoomModel.addParticipant ⟨"r", "h", [⟨"alice", "Alice", "s1"⟩], "", "javascript", [], 10⟩
      ⟨"alice", "Alice", "s2"⟩ = Except.error "User already in room" ∧
    (∃ room2,
      JsMap.mget (Socket.handleJoinRoom
          ⟨[("r", ⟨"c", "javascript",
              [⟨"a", "alice", "Alice", false, "s1", 0, 0, 0⟩], [], 0, none⟩)], []⟩
          "s2" ⟨"a", "alice", "Alice", false⟩ "r" none 10).1.activeRoomSessions "r" =
        some room2 ∧
      room2.participants =
        [⟨"a", "alice", "Alice", false, "s1", 0, 0, 0⟩] ++
          [Socket.newParticipant "s2" ⟨"a", "alice", "Alice", false⟩ 10] ∧
      room2.participants.countP (fun q => q.userId == "alice") =
        ([⟨"a", "alice", "Alice", false, "s1", 0, 0, 0⟩] :
            List Socket.Participant).countP (fun q => q.userId == "alice") + 1) := by
  have ha := C2_duplicate_identity_amended.1
    ⟨"r", "h", [], "", "javascript", [], 10⟩ ⟨"alice", "Alice", "s1"⟩
    ⟨"r", "h", [⟨"alice", "Alice", "s1"⟩], "", "javascript", [], 10⟩
    (by decide) (by rfl)
  have hb := C2_duplicate_identity_amended.2
    ⟨[("r", ⟨"c", "javascript",
        [⟨"a", "alice", "Alice", false, "s1", 0, 0, 0⟩], [], 0, none⟩)], []⟩
    "s2" ⟨"a", "alice", "Alice", false⟩ "r" none 10
    ⟨"c", "javascript", [⟨"a", "alice", "Alice", false, "s1", 0, 0, 0⟩], [], 0, none⟩
    (by decide) (by decide)
  exact ⟨ha.1, ha.2.2 (by decide), hb⟩

/-- C6: an edit from a registered sender on a live session replaces the
session's document wholesale with the new text, and the resulting code-update
broadcast goes to the room channel excluding the sender — its recipients are
exactly the session's participants' sockets other than the sender's. -/
theorem C6_edit_replaces_wholesale_and_broadcasts_except_sender :
    ∀ (st : Socket.ServerState) (socketId roomId code : String) (now : Nat)
      (room : Socket.RoomSession) (user : Socket.UserConn),
      JsMap.mget st.activeRoomSessions roomId = some room →
      JsMap.mget st.users socketId = some user →
      (∃ room', JsMap.mget
          (Socket.handleCodeUpdate st socketId roomId code now).1.activeRoomSessions roomId =
            some room' ∧
        room'.code = code ∧ room'.participants = room.participants) ∧
      (Socket.handleCodeUpdate st socketId roomId code now).2 =
        [Socket.Emit.codeUpdate socketId roomId code user.userId] ∧
      Socket.deliveredSockets room (Socket.Emit.codeUpdate socketId roomId code user.userId) =
        (room.participants.map Socket.Participant.socketId).filter fun sid => sid ≠ socketId := by
  intro st socketId roomId code now room user hroom huser
  unfold Socket.handleCodeUpdate
  rw [hroom, huser]
  refine ⟨⟨_, JsMap.mget_mset_self _ _ _, ?_, ?_⟩, rfl, rfl⟩
  · dsimp only
    split <;> rfl
  · dsimp only
    split <;> rfl

/-- Witness for C6: a concrete edit by alice (socket `s1`) in a two-party
session replaces the document with the new text and the broadcast's recipient
list is exactly the other participant's socket `s2`. -/
theorem C6_edit_replaces_wholesale_witness :
    (∃ room', JsMap.mget
        (Socket.handleCodeUpdate
          ⟨[("r", ⟨"old", "javascript",
              [⟨"a", "alice", "Alice", false, "s1", 0, 0, 0⟩,
                ⟨"b", "bob", "Bob", false, "s2", 0, 0, 0⟩], [], 0, none⟩)],
            [("s1", ⟨"alice", "Alice", "s1", "r"⟩)]⟩
          "s1" "r" "new text" 7).1.activeRoomSessions "r" = some room' ∧
      room'.code = "new text" ∧
      room'.participants =
        [⟨"a", "alice", "Alice", false, "s1", 0, 0, 0⟩,
          ⟨"b", "bob", "Bob", false, "s2", 0, 0, 0⟩]) ∧
    (Socket.handleCodeUpdate
        ⟨[("r", ⟨"old", "javascript",
            [⟨"a", "alice", "Alice", false, "s1", 0, 0, 0⟩,
              ⟨"b", "bob", "Bob", false, "s2", 0, 0, 0⟩], [], 0, none⟩)],
          [("s1", ⟨"alice", "Alice", "s1", "r"⟩)]⟩
        "s1" "r" "new text" 7).2 =
      [Socket.Emit.codeUpdate "s1" "r" "new text" "alice"] ∧
    Socket.deliveredSockets
        ⟨"old", "javascript",
          [⟨"a", "alice", "Alice", false, "s1", 0, 0, 0⟩,
            ⟨"b", "bob", "Bob", false, "s2", 0, 0, 0⟩], [], 0, none⟩
        (Socket.Emit.codeUpdate "s1" "r" "new text" "alice") = ["s2"] := by
  have h := C6_edit_replaces_wholesale_and_broadcasts_except_sender
    ⟨[("r", ⟨"old", "javascript",
        [⟨"a", "alice", "Alice", false, "s1", 0, 0, 0⟩,
          ⟨"b", "bob", "Bob", false, "s2", 0, 0, 0⟩], [], 0, none⟩)],
      [("s1", ⟨"alice", "Alice", "s1", "r"⟩)]⟩
    "s1" "r" "new text" 7
    ⟨"old", "javascript",
      [⟨"a", "alice", "Alice", false, "s1", 0, 0, 0⟩,
        ⟨"b", "bob", "Bob", false, "s2", 0, 0, 0⟩], [], 0, none⟩
    ⟨"alice", "Alice", "s1", "r"⟩ (by decide) (by decide)
  exact ⟨h.1, h.2.1, h.2.2.trans (by decide)⟩

/-- C9 fails as stated: the socket join handler appends its recording entry
with no truncation, so a session whose buffer already holds 1000 entries holds
1001 after one more join. -/
theorem C9_counterexample_unbounded_socket_recording :
    ((JsMap.mget (Socket.handleJoinRoom
        ⟨[("r", ⟨"c", "javascript", [], List.replicate 1000 ⟨"x", [], 0⟩, 0, none⟩)], []⟩
        "s1" ⟨"a", "alice", "Alice", false⟩ "r" none 5).1.activeRoomSessions "r").map
      fun room => room.recording.length) = some 1001 := by
  have hlk : JsMap.mget
      ([("r", (⟨"c", "javascript", [], List.replicate 1000 ⟨"x", [], 0⟩, 0,
        none⟩ : Socket.RoomSession))]) "r" =
      some ⟨"c", "javascript", [], List.replicate 1000 ⟨"x", [], 0⟩, 0, none⟩ := by
    rfl
  unfold Socket.handleJoinRoom
  rw [Socket.lookupOrCreateRoom_found _ _ _ _ _ hlk]
  dsimp only
  rw [if_neg (by simp [Socket.MAX_PARTICIPANTS])]
  rw [JsMap.mget_mset_self]
  simp only [Option.map_some', List.length_append, List.length_replicate,
    List.length_singleton]

/-- C9 (amended): the 1000-entry bound holds only through
`Room.addRecordingEvent`, which appends the event and keeps the most recent
1000 entries (its result never exceeds 1000); the socket join handler appends
its recording entry directly without truncation, growing the buffer by exactly
one regardless of its size. -/
theorem C9_recording_bound_amended :
    (∀ (r : RoomModel.Room) (t : String) (d : List (String × String)) (now : Nat),
      (RoomModel.addRecordingEvent r t d now).recording =
        (r.recording ++ [(⟨t, d, now⟩ : Socket.RecEvent)]).drop
          ((r.recording.length + 1) - 1000) ∧
      (RoomModel.addRecordingEvent r t d now).recording.length ≤ 1000) ∧
    (∀ (st : Socket.ServerState) (socketId : String) (user : Socket.SocketUser)
        (roomId : String) (dbRoom : Option (String × String × Nat)) (now : Nat)
        (room : Socket.RoomSession),
      JsMap.mget st.activeRoomSessions roomId = some room →
      room.participants.length < Socket.MAX_PARTICIPANTS →
      ∃ room2, JsMap.mget
          (Socket.handleJoinRoom st socketId user roomId dbRoom now).1.activeRoomSessions
          roomId = some room2 ∧
        room2.recording = room.recording ++
          [⟨"user_joined", [("userId", user.userId), ("userName", user.userName)], now⟩]) := by
  constructor
  · intro r t d now
    constructor
    · simp only [RoomModel.addRecordingEvent]
      split_ifs with h
      · simp only [List.length_append, List.length_singleton]
      · have h0 : (r.recording ++ [(⟨t, d, now⟩ : Socket.RecEvent)]).length ≤ 1000 :=
          Nat.not_lt.mp h
        simp only [List.length_append, List.length_singleton] at h0
        rw [Nat.sub_eq_zero_of_le h0, List.drop_zero]
    · simp only [RoomModel.addRecordingEvent]
      split_ifs with h
      · simp only [List.length_drop]
        omega
      · exact Nat.not_lt.mp h
  · intro st socketId user roomId dbRoom now room hlk hlt
    unfold Socket.handleJoinRoom
    rw [Socket.lookupOrCreateRoom_found st roomId dbRoom now room hlk]
    dsimp only
    rw [if_neg (Nat.not_le.mpr hlt)]
    exact ⟨_, JsMap.mget_mset_self _ _ _, rfl⟩

/-- Witness for C9 (amended): a concrete `addRecordingEvent` on a full
1000-entry buffer drops the oldest entry and stays at 1000, while a concrete
socket join on a session with a 1000-entry buffer appends a 1001st entry. -/
theorem C9_recording_bound_amended_witness :
    (RoomModel.addRecordingEvent
        ⟨"r", "h", [], "c", "javascript", List.replicate 1000 ⟨"x", [], 0⟩, 10⟩
        "execution" [] 9).recording.length ≤ 1000 ∧
    (∃ room2, JsMap.mget
        (Socket.handleJoinRoom
          ⟨[("r", ⟨"c", "javascript", [], List.replicate 1000 ⟨"x", [], 0⟩, 0, none⟩)], []⟩
          "s1" ⟨"a", "alice", "Alice", false⟩ "r" none 5).1.activeRoomSessions "r" =
        some room2 ∧
      room2.recording = List.replicate 1000 (⟨"x", [], 0⟩ : Socket.RecEvent) ++
        [⟨"user_joined", [("userId", "alice"), ("userName", "Alice")], 5⟩]) := by
  constructor
  · exact (C9_recording_bound_amended.1
      ⟨"r", "h", [], "c", "javascript", List.replicate 1000 ⟨"x", [], 0⟩, 10⟩
      "execution" [] 9).2
  · exact C9_recording_bound_amended.2
      ⟨[("r", ⟨"c", "javascript", [], List.replicate 1000 ⟨"x", [], 0⟩, 0, none⟩)], []⟩
      "s1" ⟨"a", "alice", "Alice", false⟩ "r" none 5
      ⟨"c", "javascript", [], List.replicate 1000 ⟨"x", [], 0⟩, 0, none⟩
      (by rfl) (by simp [Socket.MAX_PARTICIPANTS])

/-! ## Debounced persistence (`schedulePersistence` + `persistenceTimers`)

For one session, the `persistenceTimers` entry is a single armed deadline.
`schedulePersistence` clears any armed timer and arms a new one
`PERSIST_DEBOUNCE_MS` in the future; when a deadline passes unreplaced, the
timer fires `RoomController.persistRoomCode(roomId, room.code, ...)` — a
durable write of the session's document as it stands at fire time — and
removes itself.  A timed edit trace is replayed by a discrete-event loop:
before each edit any due timer fires, the edit stores its text
(`handleCodeUpdate`) and re-arms the timer, and after the trace the last armed
timer fires. -/

namespace Debounce

/-- One session's debounce state: the current in-memory document
(`room.code`), the armed persistence deadline (the session's
`persistenceTimers` entry), and the durable writes performed so far
(fire time, document written). -/
structure State where
  doc : String
  pending : Option Nat
  writes : List (Nat × String)
  deriving Repr, DecidableEq

/-- Let an armed timer whose deadline has been reached by time `t` fire:
it persists the current document and deletes itself. -/
def fireDue (s : State) (t : Nat) : State :=
  match s.pending with
  | some d =>
      if d ≤ t then { doc := s.doc, pending := none, writes := s.writes ++ [(d, s.doc)] }
      else s
  | none => s

/-- An edit at time `t`: any due timer fires first; then the handler stores
the new text and `schedulePersistence` clears the armed timer (cancel) and
arms a new one at `t + PERSIST_DEBOUNCE_MS` (re-arm). -/
def edit (s : State) (t : Nat) (code : String) : State :=
  let s1 := fireDue s t
  { doc := code, pending := some (t + Socket.PERSIST_DEBOUNCE_MS), writes := s1.writes }

/-- Replay a timed edit trace from an idle session holding `init`, then let
the last armed timer fire. -/
def run (edits : List (Nat × String)) (init : String) : State :=
  let final := edits.foldl (fun s e => edit s e.1 e.2)
    { doc := init, pending := none, writes := [] }
  match final.pending with
  | some d => { doc := final.doc, pending := none, writes := final.writes ++ [(d, final.doc)] }
  | none => final

theorem foldl_edits_close (edits : List (Nat × String)) :
    ∀ (s : State) (tprev : Nat),
      s.pending = some (tprev + Socket.PERSIST_DEBOUNCE_MS) →
      List.Chain (fun a b => a.1 ≤ b.1 ∧ b.1 < a.1 + Socket.PERSIST_DEBOUNCE_MS)
        (tprev, s.doc) edits →
      ∀ h : edits ≠ [],
        edits.foldl (fun s e => edit s e.1 e.2) s =
          { doc := (edits.getLast h).2,
            pending := some ((edits.getLast h).1 + Socket.PERSIST_DEBOUNCE_MS),
            writes := s.writes } := by
  induction edits with
  | nil => intro s tprev hpend hch h; exact absurd rfl h
  | cons e rest ih =>
      intro s tprev hpend hch h
      have hlt : e.1 < tprev + Socket.PERSIST_DEBOUNCE_MS := by
        cases hch with
        | cons hr _ => exact hr.2
      have hstep : edit s e.1 e.2 =
          { doc := e.2, pending := some (e.1 + Socket.PERSIST_DEBOUNCE_MS),
            writes := s.writes } := by
        unfold edit fireDue
        rw [hpend]
        dsimp only
        rw [if_neg (Nat.not_le.mpr hlt)]
      by_cases hne : rest = []
      · subst hne
        simp [List.foldl_cons, List.foldl_nil, hstep]
      · have hch' : List.Chain
            (fun a b => a.1 ≤ b.1 ∧ b.1 < a.1 + Socket.PERSIST_DEBOUNCE_MS)
            (e.1, e.2) rest := by
          cases hch with
          | cons _ htail =>
              cases e
              exact htail
        have hrec := ih (edit s e.1 e.2) e.1 (by rw [hstep]) (by rw [hstep]; exact hch') hne
        simp only [List.foldl_cons]
        rw [hrec, hstep]
        congr 1 <;> rw [List.getLast_cons hne]

theorem foldl_edits_separate (edits : List (Nat × String)) :
    ∀ (s : State) (tprev : Nat),
      s.pending = some (tprev + Socket.PERSIST_DEBOUNCE_MS) →
      List.Chain (fun a b => a.1 + Socket.PERSIST_DEBOUNCE_MS < b.1)
        (tprev, s.doc) edits →
      ∀ h : edits ≠ [],
        edits.foldl (fun s e => edit s e.1 e.2) s =
          { doc := (edits.getLast h).2,
            pending := some ((edits.getLast h).1 + Socket.PERSIST_DEBOUNCE_MS),
            writes := s.writes ++ [(tprev + Socket.PERSIST_DEBOUNCE_MS, s.doc)] ++
              (edits.dropLast.map fun e => (e.1 + Socket.PERSIST_DEBOUNCE_MS, e.2)) } := by
  induction edits with
  | nil => intro s tprev hpend hch h; exact absurd rfl h
  | cons e rest ih =>
      intro s tprev hpend hch h
      have hgt : tprev + Socket.PERSIST_DEBOUNCE_MS < e.1 := by
        cases hch with
        | cons hr _ => exact hr
      have hstep : edit s e.1 e.2 =
          { doc := e.2, pending := some (e.1 + Socket.PERSIST_DEBOUNCE_MS),
            writes := s.writes ++ [(tprev + Socket.PERSIST_DEBOUNCE_MS, s.doc)] } := by
        unfold edit fireDue
        rw [hpend]
        dsimp only
        rw [if_pos (Nat.le_of_lt hgt)]
      by_cases hne : rest = []
      · subst hne
        simp [List.foldl_cons, List.foldl_nil, hstep]
      · have hch' : List.Chain (fun a b => a.1 + Socket.PERSIST_DEBOUNCE_MS < b.1)
            (e.1, e.2) rest := by
          cases hch with
          | cons _ htail =>
              cases e
              exact htail
        have hrec := ih (edit s e.1 e.2) e.1 (by rw [hstep]) (by rw [hstep]; exact hch') hne
        simp only [List.foldl_cons]
        rw [hrec, hstep]
        have hdrop : (e :: rest).dropLast = e :: rest.dropLast :=
          List.dropLast_cons_of_ne_nil hne
        simp only [List.getLast_cons hne, hdrop, List.map_cons, List.append_assoc,
          List.cons_append, List.nil_append, List.singleton_append]

end Debounce

/-- C3: debounced persistence.  A burst of edits in which each consecutive
pair is separated by less than the debounce interval (5s) produces exactly one
durable write — the last edited document, written one debounce interval after
the last edit — because each edit cancels and re-arms the pending timer; edits
separated by more than the debounce interval each produce their own durable
write. -/
theorem C3_debounce_coalesces_bursts :
    (∀ (edits : List (Nat × String)) (init : String) (h : edits ≠ []),
      List.Chain' (fun a b => a.1 ≤ b.1 ∧ b.1 < a.1 + Socket.PERSIST_DEBOUNCE_MS) edits →
      (Debounce.run edits init).writes =
        [((edits.getLast h).1 + Socket.PERSIST_DEBOUNCE_MS, (edits.getLast h).2)]) ∧
    (∀ (edits : List (Nat × String)) (init : String),
      List.Chain' (fun a b => a.1 + Socket.PERSIST_DEBOUNCE_MS < b.1) edits →
      (Debounce.run edits init).writes =
        edits.map fun e => (e.1 + Socket.PERSIST_DEBOUNCE_MS, e.2)) := by
  constructor
  · intro edits init h hch
    match edits, h, hch with
    | e :: rest, _, hch =>
      unfold Debounce.run
      simp only [List.foldl_cons]
      have hstep1 : Debounce.edit { doc := init, pending := none, writes := [] } e.1 e.2 =
          { doc := e.2, pending := some (e.1 + Socket.PERSIST_DEBOUNCE_MS),
            writes := [] } := rfl
      rw [hstep1]
      by_cases hne : rest = []
      · subst hne
        rfl
      · have hrec := Debounce.foldl_edits_close rest
          { doc := e.2, pending := some (e.1 + Socket.PERSIST_DEBOUNCE_MS), writes := [] }
          e.1 rfl hch hne
        rw [hrec]
        dsimp only
        rw [List.getLast_cons hne]
        rfl
  · intro edits init hch
    match edits, hch with
    | [], _ => rfl
    | e :: rest, hch =>
      unfold Debounce.run
      simp only [List.foldl_cons]
      have hstep1 : Debounce.edit { doc := init, pending := none, writes := [] } e.1 e.2 =
          { doc := e.2, pending := some (e.1 + Socket.PERSIST_DEBOUNCE_MS),
            writes := [] } := rfl
      rw [hstep1]
      by_cases hne : rest = []
      · subst hne
        rfl
      · have hrec := Debounce.foldl_edits_separate rest
          { doc := e.2, pending := some (e.1 + Socket.PERSIST_DEBOUNCE_MS), writes := [] }
          e.1 rfl hch hne
        rw [hrec]
        dsimp only
        have hsplit := List.dropLast_append_getLast hne
        calc ([] ++ [(e.1 + Socket.PERSIST_DEBOUNCE_MS, e.2)] ++
                rest.dropLast.map (fun e => (e.1 + Socket.PERSIST_DEBOUNCE_MS, e.2))) ++
              [((rest.getLast hne).1 + Socket.PERSIST_DEBOUNCE_MS, (rest.getLast hne).2)] =
            (e.1 + Socket.PERSIST_DEBOUNCE_MS, e.2) ::
              ((rest.dropLast ++ [rest.getLast hne]).map
                fun e => (e.1 + Socket.PERSIST_DEBOUNCE_MS, e.2)) := by
              simp [List.map_append]
          _ = (e :: rest).map fun e => (e.1 + Socket.PERSIST_DEBOUNCE_MS, e.2) := by
              rw [hsplit, List.map_cons]

/-- Witness for C3: three concrete edits 1s apart coalesce into a single write
of the final text 5s after the last edit, while two edits 6s apart produce two
writes, one per edit. -/
theorem C3_debounce_coalesces_bursts_witness :
    (Debounce.run [(0, "a"), (1000, "ab"), (2000, "abc")] "init").writes =
      [(7000, "abc")] ∧
    (Debounce.run [(0, "a"), (6000, "b")] "init").writes =
      [(5000, "a"), (11000, "b")] := by
  constructor
  · have h := C3_debounce_coalesces_bursts.1 [(0, "a"), (1000, "ab"), (2000, "abc")]
      "init" (by decide)
      (List.Chain.cons (by decide) (List.Chain.cons (by decide) List.Chain.nil))
    simpa using h
  · have h := C3_debounce_coalesces_bursts.2 [(0, "a"), (6000, "b")] "init"
      (List.Chain.cons (by decide) List.Chain.nil)
    simpa using h

/-! ## Delayed eviction of empty sessions (`handleDisconnect`)

`handleDisconnect` removes the participant, persists the document
(`persistRoomCode`, an upsert — never a delete), and, if the session is now
empty, schedules a cleanup `setTimeout` 60s out.  The callback re-checks: it
deletes the session from `activeRoomSessions` only if the session is still
present and still empty at expiry.  Nothing cancels a scheduled callback;
a rejoin merely makes its emptiness re-check fail.  One session's lifecycle is
replayed as a discrete-event system: `join`/`leave` steps at given times, with
every due cleanup callback firing before each step and before observation. -/

namespace Evict

/-- The cleanup delay (`60000` ms in `handleDisconnect`). -/
def GRACE_MS : Nat := 60000

/-- One session's state: presence in `activeRoomSessions`, its in-memory
document, its participant count, the deadlines of scheduled cleanup callbacks,
and the durable-store row for the session (upserted by `persistRoomCode`). -/
structure EvState where
  inMemory : Bool
  doc : String
  participants : Nat
  pendingEvictions : List Nat
  store : Option String
  deriving Repr, DecidableEq

/-- Fire every cleanup callback whose deadline has been reached by time `t`:
a callback deletes the session from the in-memory map only if it is still
present and still empty; the durable store is never touched. -/
def fireDue (s : EvState) (t : Nat) : EvState :=
  let due := s.pendingEvictions.filter fun d => d ≤ t
  let remaining := s.pendingEvictions.filter fun d => ¬ d ≤ t
  if due ≠ [] ∧ s.participants = 0 ∧ s.inMemory = true then
    { s with inMemory := false, pendingEvictions := remaining }
  else { s with pendingEvictions := remaining }

/-- A join at time `t` (`handleJoinRoom`'s presence effect): due callbacks
fire first; a session still in memory keeps its document and gains a
participant; otherwise the session is re-created — from the durable row if
one exists (`loadRoomSession`), else with the default document. -/
def join (s : EvState) (t : Nat) : EvState :=
  let s1 := fireDue s t
  if s1.inMemory then { s1 with participants := s1.participants + 1 }
  else
    { inMemory := true,
      doc := match s1.store with
        | some c => c
        | none => Socket.defaultJoinCode,
      participants := 1,
      pendingEvictions := s1.pendingEvictions,
      store := s1.store }

/-- A disconnect at time `t` (`handleDisconnect`): due callbacks fire first;
the participant is removed, the document is persisted (upsert), and if the
session is now empty a cleanup callback is scheduled for `t + GRACE_MS`. -/
def leave (s : EvState) (t : Nat) : EvState :=
  let s1 := fireDue s t
  let s2 := { s1 with participants := s1.participants - 1, store := some s1.doc }
  if s2.participants = 0 then
    { s2 with pendingEvictions := s2.pendingEvictions ++ [t + GRACE_MS] }
  else s2

/-- Observe the session at time `t`: let every due callback fire. -/
def observe (s : EvState) (t : Nat) : EvState := fireDue s t

end Evict

/-- C5 fails as stated: a participant who rejoins within the grace period does
not always save the session.  Concretely — last participant leaves at 0 (a
cleanup callback is scheduled for 60000), a participant rejoins at 50000, and
leaves again at 55000; the callback from the first departure is never
cancelled, its emptiness re-check succeeds at 60000, and the session is
evicted — despite a rejoin within the grace period, and only 5s after the
second departure. -/
theorem C5_counterexample_rejoin_does_not_cancel :
    (Evict.observe
      (Evict.leave (Evict.join (Evict.leave ⟨true, "doc", 1, [], none⟩ 0) 50000) 55000)
      60000).inMemory = false := by
  decide

/-- C5 (amended): after the last participant leaves at time `t` (with no
earlier cleanup callback pending), the session survives in memory at every
instant before `t + 60000`; if no one rejoins, at any instant from
`t + 60000` on it has been removed from the in-memory map while its durable
row (upserted on disconnect) is intact; and if a participant rejoins before
the deadline and the session is still non-empty at the deadline — eviction
re-checks emptiness at expiry rather than being cancelled by the rejoin — the
session is not removed and its in-memory document is preserved. -/
theorem C5_eviction_grace_amended :
    ∀ (c : String) (st0 : Option String) (t : Nat),
      (∀ T, T < t + Evict.GRACE_MS →
        (Evict.observe (Evict.leave ⟨true, c, 1, [], st0⟩ t) T).inMemory = true) ∧
      (∀ T, t + Evict.GRACE_MS ≤ T →
        (Evict.observe (Evict.leave ⟨true, c, 1, [], st0⟩ t) T).inMemory = false ∧
        (Evict.observe (Evict.leave ⟨true, c, 1, [], st0⟩ t) T).store = some c) ∧
      (∀ t' T, t < t' → t' < t + Evict.GRACE_MS → t + Evict.GRACE_MS ≤ T →
        (Evict.observe (Evict.join (Evict.leave ⟨true, c, 1, [], st0⟩ t) t') T).inMemory
          = true ∧
        (Evict.observe (Evict.join (Evict.leave ⟨true, c, 1, [], st0⟩ t) t') T).doc = c) := by
  intro c st0 t
  have hleave : Evict.leave ⟨true, c, 1, [], st0⟩ t =
      ⟨true, c, 0, [t + Evict.GRACE_MS], some c⟩ := rfl
  refine ⟨?_, ?_, ?_⟩
  · intro T hT
    rw [hleave]
    simp [Evict.observe, Evict.fireDue, Nat.not_le.mpr hT]
  · intro T hT
    rw [hleave]
    constructor <;> simp [Evict.observe, Evict.fireDue, hT]
  · intro t' T ht1 ht2 hT
    rw [hleave]
    have hjoin : Evict.join ⟨true, c, 0, [t + Evict.GRACE_MS], some c⟩ t' =
        ⟨true, c, 1, [t + Evict.GRACE_MS], some c⟩ := by
      simp [Evict.join, Evict.fireDue, Nat.not_le.mpr ht2, ht2]
    rw [hjoin]
    constructor <;> simp [Evict.observe, Evict.fireDue, hT]

/-- Witness for C5 (amended): with a concrete departure at time 0 — in memory
at 59999; gone from memory with the durable row intact at 60000 when no one
rejoins; still in memory with the document intact at 60000 when a participant
rejoined at 30000 and stayed. -/
theorem C5_eviction_grace_amended_witness :
    (Evict.observe (Evict.leave ⟨true, "doc", 1, [], none⟩ 0) 59999).inMemory = true ∧
    (Evict.observe (Evict.leave ⟨true, "doc", 1, [], none⟩ 0) 60000).inMemory = false ∧
    (Evict.observe (Evict.leave ⟨true, "doc", 1, [], none⟩ 0) 60000).store = some "doc" ∧
    (Evict.observe (Evict.join (Evict.leave ⟨true, "doc", 1, [], none⟩ 0) 30000)
      60000).inMemory = true ∧
    (Evict.observe (Evict.join (Evict.leave ⟨true, "doc", 1, [], none⟩ 0) 30000)
      60000).doc = "doc" := by
  have h := C5_eviction_grace_amended "doc" none 0
  have h3 := h.2.2 30000 60000 (by decide) (by decide) (by decide)
  exact ⟨h.1 59999 (by decide), (h.2.1 60000 (by decide)).1, (h.2.1 60000 (by decide)).2,
    h3.1, h3.2⟩

/-! ## Rate limiter (`createRateLimiter` over `cache.incr`)

For one client key: the Redis counter with its window expiry, `cache.incr`
(Redis `INCR` then `EXPIRE` when the returned count is 1, with an internal
catch returning 0 on a cache failure), and the middleware's
increment-then-check with its outer fail-open catch. -/

namespace RateLim

/-- The state of one rate-limit key: the counter and its expiry deadline if
the key exists, and whether the cache is reachable. -/
structure CacheState where
  counter : Option (Nat × Nat)
  up : Bool
  deriving Repr, DecidableEq

/-- `cache.incr(key, ttlSeconds)`: under Redis semantics an absent (or
expired) key is created at count 1 and — because the returned count is 1 —
given expiry `now + ttl`; an existing live key is incremented with its expiry
untouched; when the cache is unreachable the internal catch returns 0. -/
def cacheIncr (st : CacheState) (now ttl : Nat) : CacheState × Nat :=
  if st.up then
    match st.counter with
    | some (c, e) =>
        if now < e then ({ st with counter := some (c + 1, e) }, c + 1)
        else ({ st with counter := some (1, now + ttl) }, 1)
    | none => ({ st with counter := some (1, now + ttl) }, 1)
  else (st, 0)

/-- The middleware's verdict on one request. -/
inductive Outcome where
  /-- `next()` was called. -/
  | allowed
  /-- HTTP 429 with `retryAfter` seconds. -/
  | rejected (retryAfter : Nat)
  deriving Repr, DecidableEq

/-- One request through `createRateLimiter({limit, windowSeconds})`: call
`cache.incr` first, then reject with `retryAfter = windowSeconds` when the
incremented count exceeds the limit, else pass the request on.  A cache
failure surfaces as count 0, which never exceeds the limit — the request is
allowed (fail open). -/
def rateLimitStep (limit ttl : Nat) (st : CacheState) (now : Nat) :
    CacheState × Outcome :=
  let res := cacheIncr st now ttl
  if res.2 > limit then (res.1, .rejected ttl) else (res.1, .allowed)

end RateLim

/-- C8 fails as stated on quota consumption: with limit 1, a first request at
time 0 is allowed leaving the counter at 1; the second request at time 1 is
rejected — but the counter is incremented to 2 before the limit check, not
left at the 1 it would hold had the rejected request never been made. -/
theorem C8_counterexample_rejection_consumes_quota :
    RateLim.rateLimitStep 1 60 ⟨none, true⟩ 0 =
      (⟨some (1, 60), true⟩, RateLim.Outcome.allowed) ∧
    RateLim.rateLimitStep 1 60 ⟨some (1, 60), true⟩ 1 =
      (⟨some (2, 60), true⟩, RateLim.Outcome.rejected 60) := by
  decide

/-- C8 (amended): a rejected request is answered with the window's
retry-after value; the first increment of a window sets the window's expiry to
`now + ttl` while later increments leave the expiry untouched; an unreachable
cache fails open (the request is allowed and the state unchanged); but a
rejected request does consume quota — the counter is incremented before the
limit check, so a rejection leaves the counter one higher than before the
request. -/
theorem C8_rate_limiter_amended :
    (∀ (limit ttl : Nat) (st st1 : RateLim.CacheState) (now r : Nat),
      RateLim.rateLimitStep limit ttl st now = (st1, RateLim.Outcome.rejected r) →
      r = ttl) ∧
    (∀ (st : RateLim.CacheState) (now ttl : Nat), st.up = true → st.counter = none →
      (RateLim.cacheIncr st now ttl).1.counter = some (1, now + ttl)) ∧
    (∀ (st : RateLim.CacheState) (now ttl c e : Nat), st.up = true →
      st.counter = some (c, e) → now < e →
      (RateLim.cacheIncr st now ttl).1.counter = some (c + 1, e)) ∧
    (∀ (limit ttl : Nat) (st : RateLim.CacheState) (now : Nat), st.up = false →
      RateLim.rateLimitStep limit ttl st now = (st, RateLim.Outcome.allowed)) ∧
    (∀ (limit ttl : Nat) (st : RateLim.CacheState) (now c e : Nat), st.up = true →
      st.counter = some (c, e) → now < e → c ≥ limit →
      RateLim.rateLimitStep limit ttl st now =
        ({ st with counter := some (c + 1, e) }, RateLim.Outcome.rejected ttl)) := by
  refine ⟨?_, ?_, ?_, ?_, ?_⟩
  · intro limit ttl st st1 now r h
    unfold RateLim.rateLimitStep at h
    dsimp only at h
    by_cases hc : (RateLim.cacheIncr st now ttl).2 > limit
    · rw [if_pos hc] at h
      simp only [Prod.mk.injEq, RateLim.Outcome.rejected.injEq] at h
      exact h.2.symm
    · rw [if_neg hc] at h
      simp only [Prod.mk.injEq] at h
      exact absurd h.2 (by intro he; cases he)
  · intro st now ttl hup hnone
    unfold RateLim.cacheIncr
    rw [hup, hnone]
    simp
  · intro st now ttl c e hup hsome hlt
    unfold RateLim.cacheIncr
    rw [hup, hsome]
    simp [hlt]
  · intro limit ttl st now hdown
    unfold RateLim.rateLimitStep RateLim.cacheIncr
    rw [hdown]
    simp
  · intro limit ttl st now c e hup hsome hlive hge
    have hgt : c + 1 > limit := by omega
    unfold RateLim.rateLimitStep RateLim.cacheIncr
    rw [hup, hsome]
    simp [hlive, hgt]

/-- Witness for C8 (amended): concrete runs — a rejection carries
`retryAfter = 60`; a fresh key gets expiry `5 + 60`; a live key keeps its
expiry; a request with the cache down is allowed unchanged; a rejection
increments the counter from 3 to 4. -/
theorem C8_rate_limiter_amended_witness :
    (60 : Nat) = 60 ∧
    (RateLim.cacheIncr ⟨none, true⟩ 5 60).1.counter = some (1, 65) ∧
    (RateLim.cacheIncr ⟨some (2, 70), true⟩ 5 60).1.counter = some (3, 70) ∧
    RateLim.rateLimitStep 100 60 ⟨some (7, 70), false⟩ 5 =
      (⟨some (7, 70), false⟩, RateLim.Outcome.allowed) ∧
    RateLim.rateLimitStep 3 60 ⟨some (3, 70), true⟩ 5 =
      (⟨some (4, 70), true⟩, RateLim.Outcome.rejected 60) := by
  refine ⟨?_, ?_, ?_, ?_, ?_⟩
  · exact C8_rate_limiter_amended.1 3 60 ⟨some (3, 70), true⟩ ⟨some (4, 70), true⟩ 5 60
      (by decide)
  · exact C8_rate_limiter_amended.2.1 ⟨none, true⟩ 5 60 rfl rfl
  · exact (C8_rate_limiter_amended.2.2.1 ⟨some (2, 70), true⟩ 5 60 2 70 rfl rfl
      (by decide)).trans (by decide)
  · exact C8_rate_limiter_amended.2.2.2.1 100 60 ⟨some (7, 70), false⟩ 5 rfl
  · exact (C8_rate_limiter_amended.2.2.2.2 3 60 ⟨some (3, 70), true⟩ 5 3 70 rfl rfl
      (by decide) (by decide)).trans (by decide)
